import Mathlib

/-!
# Verification of the Typecaster core against its specification

Shallow embedding of the core algorithms of the Typecaster-For-Houdini
repository:

* `typecaster/bidi_segmentation.py` — `line_to_run_segments`,
* `typecaster/outputCore.py` — the shaping/assembly loop of `output_geo_fast`,
* `typecaster/houdiniPen.py` — `HoudiniCubicPen` / `HoudiniQuadraticPen`.

External collaborators (the python-bidi level resolution, the harfbuzz
shaper, the fontTools tables, the Houdini node/geometry API) are modelled
as oracle parameters, exactly as the spec treats them (black boxes behind
a contract).  The repository's own control flow is translated statement
by statement.
-/

namespace Typecaster

/-! ## 1. Bidi segmentation (`bidi_segmentation.py`) -/

/-- One entry of `storage['chars']` after the external python-bidi level
resolution: a character together with its resolved bidi embedding level. -/
structure BChar where
  ch : Char
  level : Nat
deriving DecidableEq, Repr

/-- `segmentation[sidx][1].append(char)` — append a character to the last
segment of the segmentation list (`sidx` always points at the last entry). -/
def appendLast (segs : List (Nat × List BChar)) (c : BChar) : List (Nat × List BChar) :=
  match segs.getLast? with
  | none => segs
  | some s => segs.dropLast ++ [(s.1, s.2 ++ [c])]

/-- One iteration of the segmentation loop of `line_to_run_segments`.
State: the segmentation built so far and `llevel` (initially `-1`). -/
def segStep (acc : List (Nat × List BChar) × Int) (c : BChar) : List (Nat × List BChar) × Int :=
  let clevel : Int := ((c.level % 2 : Nat) : Int)
  if acc.2 ≠ clevel then (acc.1 ++ [(c.level % 2, [c])], clevel)
  else (appendLast acc.1 c, clevel)

/-- The `for char in storage['chars']` segmentation loop: partition the
character stream on changes of `level % 2`. -/
def segmentChars (chars : List BChar) : List (Nat × List BChar) :=
  (chars.foldl segStep ([], -1)).1

/-- One `(run_id_current, value % 2, isRTL)` entry of the `run_info` list. -/
structure RunInfo where
  runId : Nat
  isOdd : Bool
  lineIsRTL : Bool
deriving DecidableEq, Repr

/-- One `(runChars, dir, value, index)` entry of `reordered_segments`. -/
structure RunSeg where
  text : List Char
  dir : String
  level : Nat
  start : Nat
deriving DecidableEq, Repr

/-- One iteration of the `for value, sub in segmentation` loop of
`line_to_run_segments`.  State: `reordered_segments`, `run_id_current`,
`run_info`, `index`. -/
def runStep (isRTL : Bool) (st : List RunSeg × Nat × List RunInfo × Nat)
    (seg : Nat × List BChar) : List RunSeg × Nat × List RunInfo × Nat :=
  let rinfo := st.2.2.1 ++ [⟨st.2.1, seg.1 % 2 = 1, isRTL⟩]
  let sub := if seg.1 % 2 = 1 then seg.2.reverse else seg.2
  let dir := if seg.1 % 2 = 1 then "R" else "L"
  let runChars := sub.map (·.ch)
  (st.1 ++ [⟨runChars, dir, seg.1, st.2.2.2⟩], st.2.1 + 1, rinfo, st.2.2.2 + sub.length)

/-- `line_to_run_segments(line_text, run_id_current, run_info)`.

The external python-bidi steps (`get_base_level` through
`reorder_resolved_levels`) are the oracle inputs: `chars` is
`storage['chars']` with resolved levels, `base_level` is
`storage['base_level']`. -/
def line_to_run_segments (chars : List BChar) (base_level : Nat)
    (run_id_current : Nat) (run_info : List RunInfo) :
    List RunSeg × Nat × List RunInfo :=
  let isRTL : Bool := base_level % 2 = 1
  let segmentation0 := segmentChars chars
  let segmentation := if isRTL then segmentation0.reverse else segmentation0
  let res := segmentation.foldl (runStep isRTL) ([], run_id_current, run_info, 0)
  if isRTL then (res.1.reverse, res.2.1, res.2.2.1.reverse)
  else (res.1, res.2.1, res.2.2.1)

/-! ### Characterization of the run-emission loop -/

/-- The text of the run emitted for a segment: characters of a level-odd
segment are individually reversed, those of an even one kept in order. -/
def runTextOf (seg : Nat × List BChar) : List Char :=
  if seg.1 % 2 = 1 then seg.2.reverse.map (·.ch) else seg.2.map (·.ch)

/-- The direction string of the run emitted for a segment. -/
def dirOf (seg : Nat × List BChar) : String :=
  if seg.1 % 2 = 1 then "R" else "L"

/-- The run list the emission loop produces from a segment list, starting
at text offset `idx`. -/
def buildRuns (idx : Nat) : List (Nat × List BChar) → List RunSeg
  | [] => []
  | s :: rest => ⟨runTextOf s, dirOf s, s.1, idx⟩ :: buildRuns (idx + s.2.length) rest

/-- The run-info entries the emission loop produces, starting at id `rid`. -/
def buildInfo (isRTL : Bool) (rid : Nat) : List (Nat × List BChar) → List RunInfo
  | [] => []
  | s :: rest => ⟨rid, s.1 % 2 = 1, isRTL⟩ :: buildInfo isRTL (rid + 1) rest

lemma sub_length (seg : Nat × List BChar) :
    (if seg.1 % 2 = 1 then seg.2.reverse else seg.2).length = seg.2.length := by
  split <;> simp

lemma foldl_runStep (isRTL : Bool) (segs : List (Nat × List BChar))
    (runs : List RunSeg) (rid : Nat) (rinfo : List RunInfo) (idx : Nat) :
    segs.foldl (runStep isRTL) (runs, rid, rinfo, idx)
      = (runs ++ buildRuns idx segs, rid + segs.length,
         rinfo ++ buildInfo isRTL rid segs,
         idx + (segs.map (fun s => s.2.length)).sum) := by
  induction segs generalizing runs rid rinfo idx with
  | nil => simp [buildRuns, buildInfo]
  | cons s rest ih =>
    by_cases h : s.1 % 2 = 1 <;>
      simp [runStep, ih, buildRuns, buildInfo, runTextOf, dirOf, h, Nat.add_assoc,
        Nat.add_comm 1 rest.length]

lemma buildRuns_map_tdl (idx : Nat) (segs : List (Nat × List BChar)) :
    (buildRuns idx segs).map (fun r => (r.text, r.dir, r.level))
      = segs.map (fun s => (runTextOf s, dirOf s, s.1)) := by
  induction segs generalizing idx with
  | nil => rfl
  | cons s rest ih => simp [buildRuns, ih]

lemma buildRuns_length (idx : Nat) (segs : List (Nat × List BChar)) :
    (buildRuns idx segs).length = segs.length := by
  induction segs generalizing idx with
  | nil => rfl
  | cons s rest ih => simp [buildRuns, ih]

lemma buildInfo_map_runId (isRTL : Bool) (rid : Nat) (segs : List (Nat × List BChar)) :
    (buildInfo isRTL rid segs).map (·.runId) = List.range' rid segs.length := by
  induction segs generalizing rid with
  | nil => rfl
  | cons s rest ih => simp [buildInfo, ih, List.range'_succ]

lemma buildRuns_intervals (idx : Nat) (segs : List (Nat × List BChar)) :
    ((buildRuns idx segs).map (fun r => List.range' r.start r.text.length)).flatten
      = List.range' idx ((segs.map (fun s => s.2.length)).sum) := by
  induction segs generalizing idx with
  | nil => rfl
  | cons s rest ih =>
    have htext : (runTextOf s).length = s.2.length := by
      unfold runTextOf; split <;> simp
    simp only [buildRuns, List.map_cons, List.flatten_cons, ih, htext, List.map, List.sum_cons]
    have := List.range'_append idx s.2.length ((rest.map (fun s => s.2.length)).sum) 1
    simp only [one_mul] at this
    rw [this, Nat.add_comm ((rest.map (fun s => s.2.length)).sum) s.2.length]

/-! ### Invariant of the segmentation loop -/

/-- Well-formedness of a segmentation: every segment is nonempty and has
constant character-level parity equal to its recorded value, and adjacent
segments carry different values (the runs are maximal). -/
def SegsWF (segs : List (Nat × List BChar)) : Prop :=
  (∀ s ∈ segs, s.2 ≠ [] ∧ ∀ c ∈ s.2, c.level % 2 = s.1) ∧
  (segs.map (·.1)).Chain' (· ≠ ·)

/-- Loop invariant of the segmentation fold: the accumulated segmentation
is well formed and `llevel` is the value of the last segment (`-1` when
no segment exists yet). -/
def SegInv (acc : List (Nat × List BChar) × Int) : Prop :=
  SegsWF acc.1 ∧
  (match acc.1.getLast? with
   | none => acc.2 = -1
   | some s => acc.2 = (s.1 : Int))

lemma segInv_step (acc : List (Nat × List BChar) × Int) (c : BChar) (h : SegInv acc) :
    SegInv (segStep acc c) ∧
    ((segStep acc c).1.map (·.2)).flatten = (acc.1.map (·.2)).flatten ++ [c] := by
  obtain ⟨⟨hwf, hchain⟩, hlast⟩ := h
  by_cases hb : acc.2 ≠ ((c.level % 2 : Nat) : Int)
  · -- new-segment branch
    have hstep : segStep acc c = (acc.1 ++ [(c.level % 2, [c])], ((c.level % 2 : Nat) : Int)) := by
      unfold segStep
      rw [if_pos hb]
    refine ⟨⟨⟨?_, ?_⟩, ?_⟩, ?_⟩
    · rw [hstep]
      intro s hs
      rcases List.mem_append.mp hs with hs | hs
      · exact hwf s hs
      · simp only [List.mem_singleton] at hs
        subst hs
        exact ⟨by simp, by simp⟩
    · rw [hstep]
      simp only [List.map_append, List.map]
      rw [List.chain'_append]
      refine ⟨hchain, List.chain'_singleton _, ?_⟩
      intro x hx y hy
      simp only [List.head?_cons, Option.mem_def, Option.some.injEq] at hy
      subst hy
      -- x is the value of the last segment; llevel = x ≠ clevel
      rcases hlastcase : acc.1.getLast? with _ | s
      · simp [List.getLast?_map, hlastcase] at hx
      · simp only [List.getLast?_map, hlastcase, Option.map_some', Option.mem_def,
          Option.some.injEq] at hx
        subst hx
        rw [hlastcase] at hlast
        intro hxy
        exact hb (by rw [hlast, hxy])
    · rw [hstep]
      simp
    · rw [hstep]
      simp
  · -- append-to-last branch
    push_neg at hb
    have hne : acc.1 ≠ [] := by
      intro hnil
      rw [hnil] at hlast
      simp only [List.getLast?_nil] at hlast
      rw [hlast] at hb
      omega
    have hstep : segStep acc c = (appendLast acc.1 c, ((c.level % 2 : Nat) : Int)) := by
      unfold segStep
      rw [if_neg (by simpa using hb)]
    have hgl : acc.1.getLast? = some (acc.1.getLast hne) := List.getLast?_eq_getLast _ hne
    have hal : appendLast acc.1 c
        = acc.1.dropLast ++ [((acc.1.getLast hne).1, (acc.1.getLast hne).2 ++ [c])] := by
      unfold appendLast
      rw [hgl]
    rw [hgl] at hlast
    have hval : (acc.1.getLast hne).1 = c.level % 2 := by
      have : ((acc.1.getLast hne).1 : Int) = ((c.level % 2 : Nat) : Int) := by
        rw [← hlast, hb]
      exact_mod_cast this
    have hsplit : acc.1.dropLast ++ [acc.1.getLast hne] = acc.1 :=
      List.dropLast_append_getLast hne
    refine ⟨⟨⟨?_, ?_⟩, ?_⟩, ?_⟩
    · rw [hstep]
      intro s hs
      rw [hal] at hs
      rcases List.mem_append.mp hs with hs | hs
      · exact hwf s (List.dropLast_subset _ hs)
      · simp only [List.mem_singleton] at hs
        subst hs
        refine ⟨by simp, ?_⟩
        intro d hd
        rcases List.mem_append.mp hd with hd | hd
        · exact (hwf _ (List.getLast_mem hne)).2 d hd
        · simp only [List.mem_singleton] at hd
          subst hd
          simpa using hval.symm
    · rw [hstep]
      have hmapval : (appendLast acc.1 c).map (·.1) = acc.1.map (·.1) := by
        calc (appendLast acc.1 c).map (·.1)
            = acc.1.dropLast.map (·.1) ++ [(acc.1.getLast hne).1] := by rw [hal]; simp
          _ = (acc.1.dropLast ++ [acc.1.getLast hne]).map (·.1) := by simp
          _ = acc.1.map (·.1) := by rw [hsplit]
      simpa [hmapval] using hchain
    · rw [hstep]
      simp only [hal]
      rw [List.getLast?_concat]
      simp [hval, hb]
    · rw [hstep]
      simp only [hal]
      conv_rhs => rw [← hsplit]
      simp

lemma segInv_foldl (cs : List BChar) (acc : List (Nat × List BChar) × Int) (h : SegInv acc) :
    SegInv (cs.foldl segStep acc) ∧
    ((cs.foldl segStep acc).1.map (·.2)).flatten = (acc.1.map (·.2)).flatten ++ cs := by
  induction cs generalizing acc with
  | nil => simpa using h
  | cons c rest ih =>
    obtain ⟨hinv, hflat⟩ := segInv_step acc c h
    obtain ⟨hinv', hflat'⟩ := ih _ hinv
    exact ⟨hinv', by rw [List.foldl_cons, hflat', hflat, List.append_assoc]; rfl⟩

lemma segmentChars_wf (chars : List BChar) : SegsWF (segmentChars chars) :=
  (segInv_foldl chars ([], -1) ⟨⟨by simp, by simp⟩, by simp⟩).1.1

lemma segmentChars_flatten (chars : List BChar) :
    ((segmentChars chars).map (·.2)).flatten = chars := by
  have := (segInv_foldl chars ([], -1) ⟨⟨by simp, by simp⟩, by simp⟩).2
  simpa [segmentChars] using this

lemma segmentChars_sum_length (chars : List BChar) :
    ((segmentChars chars).map (fun s => s.2.length)).sum = chars.length := by
  have h := segmentChars_flatten chars
  have : (((segmentChars chars).map (·.2)).flatten).length = chars.length := by rw [h]
  simpa [List.length_flatten, Function.comp] using this

/-! ### Unfolding of `line_to_run_segments` through the fold lemma -/

lemma line_to_run_segments_rtl (chars : List BChar) (bl rid : Nat) (ri : List RunInfo)
    (h : bl % 2 = 1) :
    line_to_run_segments chars bl rid ri
      = ((buildRuns 0 (segmentChars chars).reverse).reverse,
         rid + (segmentChars chars).length,
         (ri ++ buildInfo true rid (segmentChars chars).reverse).reverse) := by
  unfold line_to_run_segments
  have hd : (decide (bl % 2 = 1)) = true := by simp [h]
  rw [hd]
  simp only [eq_self_iff_true, if_true]
  rw [foldl_runStep]
  simp

lemma line_to_run_segments_ltr (chars : List BChar) (bl rid : Nat) (ri : List RunInfo)
    (h : ¬ bl % 2 = 1) :
    line_to_run_segments chars bl rid ri
      = (buildRuns 0 (segmentChars chars), rid + (segmentChars chars).length,
         ri ++ buildInfo false rid (segmentChars chars)) := by
  unfold line_to_run_segments
  have hd : (decide (bl % 2 = 1)) = false := by simp [h]
  rw [hd]
  simp only [Bool.false_eq_true, if_false]
  rw [foldl_runStep]
  simp

lemma buildRuns_head? (idx : Nat) (segs : List (Nat × List BChar)) :
    (buildRuns idx segs).head?
      = segs.head?.map (fun s => (⟨runTextOf s, dirOf s, s.1, idx⟩ : RunSeg)) := by
  cases segs <;> rfl

/-! ## 2. Claims about the bidi segmenter -/

/-- C1: `line_to_run_segments` partitions the character sequence into
maximal runs of constant bidi-level parity (`level % 2`): the segments
concatenate back to the input, each is nonempty with constant character
parity equal to its recorded value, adjacent segments have different
values; and the returned run list carries, segment by segment, the
segment's text with the characters of each odd-level (RTL) segment
individually reversed and those of each even-level segment kept in
logical order. -/
theorem C1_parity_runs (chars : List BChar) (bl rid : Nat) :
    (((segmentChars chars).map (·.2)).flatten = chars) ∧
    (∀ s ∈ segmentChars chars, s.2 ≠ [] ∧ ∀ c ∈ s.2, c.level % 2 = s.1) ∧
    (((segmentChars chars).map (·.1)).Chain' (· ≠ ·)) ∧
    ((line_to_run_segments chars bl rid []).1.map (fun r => (r.text, r.dir, r.level))
      = (segmentChars chars).map (fun s =>
          (if s.1 % 2 = 1 then s.2.reverse.map (·.ch) else s.2.map (·.ch),
           if s.1 % 2 = 1 then "R" else "L", s.1))) := by
  refine ⟨segmentChars_flatten chars, (segmentChars_wf chars).1, (segmentChars_wf chars).2, ?_⟩
  by_cases h : bl % 2 = 1
  · rw [line_to_run_segments_rtl chars bl rid [] h, List.map_reverse, buildRuns_map_tdl,
      List.map_reverse, List.reverse_reverse]
    rfl
  · rw [line_to_run_segments_ltr chars bl rid [] h, buildRuns_map_tdl]
    rfl

/-- Witness for C1 on the mixed-parity line `a` (level 0), `b` (level 1)
with RTL base level 1. -/
theorem C1_parity_runs_witness :
    (((segmentChars [⟨'a', 0⟩, ⟨'b', 1⟩]).map (·.2)).flatten = [⟨'a', 0⟩, ⟨'b', 1⟩]) ∧
    (∀ s ∈ segmentChars [⟨'a', 0⟩, ⟨'b', 1⟩], s.2 ≠ [] ∧ ∀ c ∈ s.2, c.level % 2 = s.1) ∧
    (((segmentChars [⟨'a', 0⟩, ⟨'b', 1⟩]).map (·.1)).Chain' (· ≠ ·)) ∧
    ((line_to_run_segments [⟨'a', 0⟩, ⟨'b', 1⟩] 1 0 []).1.map (fun r => (r.text, r.dir, r.level))
      = (segmentChars [⟨'a', 0⟩, ⟨'b', 1⟩]).map (fun s =>
          (if s.1 % 2 = 1 then s.2.reverse.map (·.ch) else s.2.map (·.ch),
           if s.1 % 2 = 1 then "R" else "L", s.1))) :=
  C1_parity_runs [⟨'a', 0⟩, ⟨'b', 1⟩] 1 0

/-- C8 counterexample: on an RTL base line (base level 1) with two runs
and input cursor 5, the returned `run_info` carries the run ids in the
order `[6, 5]` — not the claimed monotonically increasing order
`[5, 6] = List.range' 5 2` continuing from the cursor. -/
theorem C8_counterexample :
    ((line_to_run_segments [⟨'b', 1⟩, ⟨'1', 2⟩] 1 5 []).2.2.map (·.runId) = [6, 5]) ∧
    ((line_to_run_segments [⟨'b', 1⟩, ⟨'1', 2⟩] 1 5 []).2.2.map (·.runId) ≠ List.range' 5 2) := by
  constructor
  · rfl
  · decide

/-- C8 (amended): run ids are assigned monotonically increasing by 1 from
the input cursor in visual processing order, and the returned cursor is
the input cursor plus the number of runs; but for an RTL base line both
returned lists are reversed at the end, so the returned `run_info` lists
the ids in decreasing order.  An empty line yields an empty run list, an
unchanged cursor and no run-info entries. -/
theorem C8_run_ids (chars : List BChar) (bl rid : Nat) :
    ((line_to_run_segments chars bl rid []).2.1 = rid + (segmentChars chars).length) ∧
    ((line_to_run_segments chars bl rid []).2.2.map (·.runId)
      = if bl % 2 = 1 then (List.range' rid (segmentChars chars).length).reverse
        else List.range' rid (segmentChars chars).length) ∧
    ((line_to_run_segments chars bl rid []).1.length = (segmentChars chars).length) ∧
    (chars = [] → (line_to_run_segments chars bl rid []).1 = []
       ∧ (line_to_run_segments chars bl rid []).2.1 = rid
       ∧ (line_to_run_segments chars bl rid []).2.2 = []) := by
  by_cases h : bl % 2 = 1
  · rw [line_to_run_segments_rtl chars bl rid [] h]
    refine ⟨rfl, ?_, ?_, ?_⟩
    · simp [h, List.map_reverse, buildInfo_map_runId]
    · simp [buildRuns_length]
    · intro hnil
      subst hnil
      exact ⟨rfl, rfl, rfl⟩
  · rw [line_to_run_segments_ltr chars bl rid [] h]
    refine ⟨rfl, ?_, ?_, ?_⟩
    · simp [h, buildInfo_map_runId]
    · simp [buildRuns_length]
    · intro hnil
      subst hnil
      exact ⟨rfl, rfl, rfl⟩

/-- Witness for C8 (amended) on a concrete RTL two-run line. -/
theorem C8_run_ids_witness :
    ((line_to_run_segments [⟨'b', 1⟩, ⟨'1', 2⟩] 1 5 []).2.1
       = 5 + (segmentChars [⟨'b', 1⟩, ⟨'1', 2⟩]).length) ∧
    ((line_to_run_segments [⟨'b', 1⟩, ⟨'1', 2⟩] 1 5 []).2.2.map (·.runId)
      = if (1 : Nat) % 2 = 1
          then (List.range' 5 (segmentChars [⟨'b', 1⟩, ⟨'1', 2⟩]).length).reverse
          else List.range' 5 (segmentChars [⟨'b', 1⟩, ⟨'1', 2⟩]).length) ∧
    ((line_to_run_segments [⟨'b', 1⟩, ⟨'1', 2⟩] 1 5 []).1.length
       = (segmentChars [⟨'b', 1⟩, ⟨'1', 2⟩]).length) ∧
    ([⟨'b', 1⟩, ⟨'1', 2⟩] = ([] : List BChar) →
       (line_to_run_segments [⟨'b', 1⟩, ⟨'1', 2⟩] 1 5 []).1 = []
       ∧ (line_to_run_segments [⟨'b', 1⟩, ⟨'1', 2⟩] 1 5 []).2.1 = 5
       ∧ (line_to_run_segments [⟨'b', 1⟩, ⟨'1', 2⟩] 1 5 []).2.2 = []) :=
  C8_run_ids [⟨'b', 1⟩, ⟨'1', 2⟩] 1 5

/-- C9: the `(startIndexInLine, length-of-run-text)` intervals of the
returned runs are pairwise disjoint and exactly cover
`[0, number of characters)` — their concatenation is a permutation of
`List.range`; and start offsets are assigned in visual processing order:
for an RTL base line the visually leftmost run, which is the *last* run
of the returned (logically ordered) list, has start offset 0. -/
theorem C9_interval_cover (chars : List BChar) (bl rid : Nat) :
    ((((line_to_run_segments chars bl rid []).1.map
        (fun r => List.range' r.start r.text.length)).flatten).Perm
      (List.range chars.length)) ∧
    (bl % 2 = 1 → ∀ r ∈ (line_to_run_segments chars bl rid []).1.getLast?, r.start = 0) := by
  by_cases h : bl % 2 = 1
  · rw [line_to_run_segments_rtl chars bl rid [] h]
    constructor
    · rw [List.map_reverse]
      refine ((List.reverse_perm _).flatten).trans ?_
      rw [buildRuns_intervals]
      have hsum : (((segmentChars chars).reverse.map (fun s => s.2.length)).sum)
          = chars.length := by
        rw [List.map_reverse, List.sum_reverse, segmentChars_sum_length]
      rw [hsum, ← List.range_eq_range']
    · intro _ r hr
      rw [List.getLast?_reverse, buildRuns_head?] at hr
      cases hhead : (segmentChars chars).reverse.head? with
      | none => rw [hhead] at hr; simp at hr
      | some s =>
        rw [hhead] at hr
        simp only [Option.map_some', Option.mem_def, Option.some.injEq] at hr
        subst hr
        rfl
  · rw [line_to_run_segments_ltr chars bl rid [] h]
    constructor
    · rw [buildRuns_intervals, segmentChars_sum_length, ← List.range_eq_range']
    · intro habs
      exact absurd habs h

/-- Witness for C9 on a concrete RTL two-run line. -/
theorem C9_interval_cover_witness :
    ((((line_to_run_segments [⟨'b', 1⟩, ⟨'1', 2⟩] 1 0 []).1.map
        (fun r => List.range' r.start r.text.length)).flatten).Perm
      (List.range ([⟨'b', 1⟩, ⟨'1', 2⟩] : List BChar).length)) ∧
    ((1 : Nat) % 2 = 1 →
      ∀ r ∈ (line_to_run_segments [⟨'b', 1⟩, ⟨'1', 2⟩] 1 0 []).1.getLast?, r.start = 0) :=
  C9_interval_cover [⟨'b', 1⟩, ⟨'1', 2⟩] 1 0

/-! ## 3. The Houdini pens (`houdiniPen.py`)

Coordinates are pure data for the pens (they are copied, never computed
with), so points are modelled as integer pairs. -/

/-- State of a Houdini pen: the control points accumulated for the
current contour (`self.ptsset`) and the contours flushed so far — each
`closePath` turns the accumulated array into one Houdini point record. -/
structure PenState where
  ptsset : List Int
  contours : List (List Int)
deriving DecidableEq, Repr

/-- `HoudiniBasePen.closePath`: flush the accumulated control points as
one record and reset the accumulator. -/
def closePath (s : PenState) : PenState :=
  { ptsset := [], contours := s.contours ++ [s.ptsset] }

namespace HoudiniCubicPen

def moveTo (s : PenState) (pt1 : Int × Int) : PenState :=
  { s with ptsset := s.ptsset ++ [pt1.1, pt1.2, pt1.1, pt1.2, pt1.1, pt1.2] }

def lineTo (s : PenState) (pt1 : Int × Int) : PenState :=
  { s with ptsset := s.ptsset ++ [pt1.1, pt1.2, pt1.1, pt1.2, pt1.1, pt1.2] }

def curveTo (s : PenState) (pt1 pt2 pt3 : Int × Int) : PenState :=
  { s with ptsset := s.ptsset ++ [pt1.1, pt1.2, pt2.1, pt2.2, pt3.1, pt3.2] }

def qCurveTo (s : PenState) (pt1 pt2 : Int × Int) : PenState :=
  { s with ptsset := s.ptsset ++ [pt1.1, pt1.2, pt2.1, pt2.2, pt2.1, pt2.2] }

end HoudiniCubicPen

namespace HoudiniQuadraticPen

def moveTo (s : PenState) (pt1 : Int × Int) : PenState :=
  { s with ptsset := s.ptsset ++ [pt1.1, pt1.2, pt1.1, pt1.2] }

def lineTo (s : PenState) (pt1 : Int × Int) : PenState :=
  { s with ptsset := s.ptsset ++ [pt1.1, pt1.2, pt1.1, pt1.2] }

def qCurveTo (s : PenState) (pt1 pt2 : Int × Int) : PenState :=
  { s with ptsset := s.ptsset ++ [pt1.1, pt1.2, pt2.1, pt2.2] }

end HoudiniQuadraticPen

/-- The record C7 claims for a quadratic segment fed to the cubic pen,
following the spec's words: the single quadratic control point duplicated
into both cubic control-point slots, followed by the endpoint. -/
def qCurveTo_specClaim (s : PenState) (pt1 pt2 : Int × Int) : PenState :=
  { s with ptsset := s.ptsset ++ [pt1.1, pt1.2, pt1.1, pt1.2, pt2.1, pt2.2] }

/-! ## 4. `outputCore.py` — `output_geo_fast`

The font-loading, Houdini parameter and attribute plumbing around the
main loop are host glue (spec §1 excludes them); the loop itself —
segmentation, shaping, cluster sizing, per-glyph variation resolution,
kerning recovery, deduplication, skeleton emission — is embedded below.
Uncaught Python exceptions are modelled as `Except.error`. -/

/-- One glyph of a shaper result, as the code reads it (uharfbuzz glyph
info and positions: `name`, `gid`, `cluster`, advance `ax`, offsets
`dx`/`dy`). -/
structure ShapedGlyph where
  name : String
  gid : Nat
  cluster : Nat
  ax : Int
  dx : Int
  dy : Int
deriving DecidableEq, Repr

/-- The external collaborators of `output_geo_fast`, bundled as oracles.

`shape text varLoc dir` models `fontgoggle.shaper.shape(text,
features=…, varLocation=varLoc, direction=dir)` with the (constant)
feature set baked in.  Shaping applies its `varLocation` to the font, so
`advance varLoc gid` models `fontgoggle.shaper.font.get_glyph_h_advance
(gid)` with `varLoc` the variation state currently applied to the font
(by the preceding `shape` or `set_variations` call).  `pointAttr i name`
models `hpoints[i].attribValue(name)` for an in-range Python index `i`;
`compatName` is the hda module's `ensure_compatible_name`; `hashFn` is
Python's `hash`, an arbitrary function of the dict string.
`bidiBaseLevel`/`bidiLevels` are the external python-bidi level
resolution feeding `line_to_run_segments`. -/
structure Oracle where
  shape : List Char → List (String × Int) → Option String → List ShapedGlyph
  advance : List (String × Int) → Nat → Int
  pointAttr : Int → String → Int
  compatName : String → String
  hashFn : String → Int
  bidiBaseLevel : List Char → Nat
  bidiLevels : List Char → List Nat

/-- The OS/2 table fields the code reads; `none` models a missing
attribute (`hasattr` false). -/
structure OS2 where
  sCapHeight : Option Int
  sTypoAscender : Option Int
deriving DecidableEq, Repr

/-- The request configuration of `output_geo_fast` (parameter reads and
font metadata resolved before the main loop). -/
structure Config where
  varying_per_glyph : Bool
  font_using_kern : Bool
  reprocess_for_glyphswap : Bool
  use_bidi_segmentation : Bool
  remove_overlaps : Bool
  variation_axes : List String
  variations : List (String × Int)
  numPoints : Nat
  attribstatus : List String
  vmtx : Option (List (String × Int))
  os2 : OS2

/-- Lines 155–156: resolve the fallback cap height from the OS/2 table:
`sCapHeight` when the attribute exists (else 0), and if that value is 0,
`sTypoAscender` when the attribute exists, else the literal 750. -/
def resolve_sCapHeight (os2 : OS2) : Int :=
  let c : Int := match os2.sCapHeight with | some v => v | none => 0
  if c = 0 then (match os2.sTypoAscender with | some v => v | none => 750) else c

/-- Lines 498–503: the vertical glyph box size.  With a `vmtx` table the
entry for the glyph is used (`vmtx.metrics.get(glyph_name, 0)[0]` — a
glyph missing from the metrics dict indexes into the default `0` and
raises a `TypeError`), falling back to the resolved cap height when the
entry is zero; without `vmtx` the resolved cap height is used. -/
def glyphBoxHeight (vmtx : Option (List (String × Int))) (sCapHeight : Int)
    (glyph_name : String) : Except String Int :=
  match vmtx with
  | some metrics =>
    match metrics.lookup glyph_name with
    | some h => .ok (if h = 0 then sCapHeight else h)
    | none => .error ("TypeError: vmtx metrics entry missing for glyph")
  | none => .ok sCapHeight

/-- The `ids` array written on every glyph point and glyph primitive
(lines 481–486). -/
structure Ids where
  line_id : Nat
  stable_idx : Int
  true_idx : Nat
  gid : Nat
  source_idx : Nat
  codepoint : Nat
  line_idx : Int
  glyph_hash : Int
  run_id : Nat
deriving DecidableEq, Repr

/-- The skeleton output: the points (with their attributes and
connectivity) that `output_geo_fast` creates, in creation order. -/
inductive SkelEv where
  | block
  | line (lineId : Nat)
  | glyph (gsz : List Int) (ids : Ids) (offset : Option (Int × Int))
  | glyphext (gsz : List Int) (ids : Ids) (offset : Int × Int) (target : Ids)
deriving DecidableEq, Repr

/-- The mutable state threaded through the line loop of
`output_geo_fast`.  `glyphqueue` is re-initialised at the start of every
line; `geoRecords` lists the glyph primitives created for first-seen
glyph identities (outline extraction itself is the pen embedding above). -/
structure AsmState where
  stable_idx : Int
  true_idx : Nat
  linestart : Nat
  run_id_current : Nat
  glyphqueue : List (List Int × Ids × (Int × Int))
  unique_glyphs : List (Int × Nat)
  events : List SkelEv
  geoRecords : List Ids
deriving DecidableEq, Repr

/-- Python dict assignment `d[k] = v` on an insertion-ordered
association list with unique keys. -/
def dictInsert (d : List (String × Int)) (k : String) (v : Int) : List (String × Int) :=
  if d.any (fun p => p.1 = k) then d.map (fun p => if p.1 = k then (k, v) else p)
  else d ++ [(k, v)]

/-- Insertion into a key-sorted association list (for
`sorted(d.items())`; keys of a dict are unique). -/
def insertSorted (p : String × Int) : List (String × Int) → List (String × Int)
  | [] => [p]
  | q :: rest => if p.1 ≤ q.1 then p :: q :: rest else q :: insertSorted p rest

/-- `sorted(glyph_variations.items())`. -/
def sortedItems (d : List (String × Int)) : List (String × Int) :=
  d.foldr insertSorted []

/-- Line 483: `f"glyph{glyph.gid}" + str(sorted(glyph_variations.items()))`.
The exact rendering is irrelevant to the claims; it is a function of the
gid and the sorted items. -/
def dictString (gid : Nat) (vars : List (String × Int)) : String :=
  "glyph" ++ toString gid ++ toString (sortedItems vars)

/-- Lines 489–493: the dedup-map update — `unique_glyphs[glyph_hash] += 1`
when the key is present, `= 1` otherwise; the boolean is
`glyph_already_exists`. -/
def dedupStep (m : List (Int × Nat)) (k : Int) : Bool × List (Int × Nat) :=
  if m.any (fun p => p.1 = k) then
    (true, m.map (fun p => if p.1 = k then (p.1, p.2 + 1) else p))
  else (false, m ++ [(k, 1)])

/-- Python list slicing `xs[a:b]` for a non-negative start `a`. -/
def pySlice {α : Type} (xs : List α) (a : Nat) (b : Int) : List α :=
  let n := xs.length
  let b1 : Int := if b < 0 then (n : Int) + b else b
  let b2 : Nat := if b1 < 0 then 0 else min b1.toNat n
  (xs.take b2).drop a

/-- Lines 393–402: resolve the per-glyph variation dict.  Every axis
whose (name-normalised) attribute exists on the second input's points is
overridden from `hpoints[stable_idx]`; an `IndexError` there (index
outside `[-len, len)`) is swallowed, leaving the global variations. -/
def perGlyphVariations (cfg : Config) (o : Oracle) (stable_idx : Int) : List (String × Int) :=
  if -(cfg.numPoints : Int) ≤ stable_idx ∧ stable_idx < (cfg.numPoints : Int) then
    cfg.variation_axes.foldl (fun d var =>
      if cfg.attribstatus.contains (o.compatName var) then
        dictInsert d var (o.pointAttr stable_idx (o.compatName var))
      else d) cfg.variations
  else cfg.variations

/-- Lines 357–387 (`is_reversed` detection is separate): compute
`clustersize` and `glyph_cluster_next` for the glyph at `glyph_idx`
(`-1` standing for the Python initialisation of `glyph_cluster_next`). -/
def computeClusterSize (is_reversed : Bool) (glyph_run : List ShapedGlyph)
    (run_text_len : Nat) (glyph_idx : Nat) (glyph_cluster : Nat) :
    Except String (Int × Int) :=
  if is_reversed then
    if glyph_idx > 0 then
      match glyph_run[glyph_idx + 1]? with
      | some g => .ok ((glyph_cluster : Int) - (g.cluster : Int), (g.cluster : Int))
      | none => .ok ((glyph_cluster : Int) + 1, -1)
    else
      match glyph_run[glyph_idx + 1]? with
      | some g => .ok ((run_text_len : Int) - (glyph_cluster : Int), (g.cluster : Int))
      | none => .error ("IndexError: glyph_run[1] on a single-glyph reversed run")
  else
    match glyph_run[glyph_idx + 1]? with
    | some g => .ok ((g.cluster : Int) - (glyph_cluster : Int), (g.cluster : Int))
    | none => .ok ((run_text_len : Int) - (glyph_cluster : Int), -1)

/-- Lines 404–446: resolve the advance for the current glyph.  Returns
`(ax, glyph, ax_nokern)`; `glyph` is returned because the code may rebind
it to a re-shaped glyph.  Note that when the experimental
`reprocess_for_glyphswap` path succeeds (`needs_run = False`), control
falls into the `else` of `if font_using_kern and needs_run`, which
overwrites `ax` with the unkerned advance of the re-shaped glyph under
the per-glyph variations. -/
def resolveAdvance (cfg : Config) (o : Oracle) (run_text : List Char)
    (glyph : ShapedGlyph) (glyph_cluster : Nat) (clustersize : Int)
    (glyph_variations : List (String × Int)) :
    Except String (Int × ShapedGlyph × Option Int) :=
  if cfg.varying_per_glyph then
    let reproc : Option ShapedGlyph :=
      if cfg.reprocess_for_glyphswap then
        (o.shape run_text glyph_variations none)[glyph_cluster]?
      else none
    match reproc with
    | some g => .ok (o.advance glyph_variations g.gid, g, none)
    | none =>
      if cfg.font_using_kern then
        let minimal := pySlice run_text glyph_cluster ((glyph_cluster : Int) + clustersize + 1)
        match (o.shape minimal glyph_variations none)[0]? with
        | none => .error ("IndexError: re-shape of the minimal text returned no glyphs")
        | some reglyph =>
          if reglyph.name = glyph.name then .ok (reglyph.ax, reglyph, none)
          else .ok (o.advance glyph_variations glyph.gid, glyph, none)
      else
        .ok (o.advance glyph_variations glyph.gid, glyph, none)
  else
    .ok (glyph.ax, glyph,
      if cfg.font_using_kern then some (o.advance cfg.variations glyph.gid) else none)

/-- The per-run context of the glyph loop. -/
structure RunCtx where
  line_id : Nat
  run_text : List Char
  run_start_full : Nat
  run_id : Nat
  is_reversed : Bool
  glyph_run : List ShapedGlyph

/-- The glyph-loop state: the threaded assembler state plus the loop
locals `line_idx` (initialised to 0 per *run*, lines 364–365) and
`glyph_cluster_last` (initialised to `-1` per run). -/
structure GState where
  s : AsmState
  line_idx : Int
  glyph_cluster_last : Int
deriving DecidableEq, Repr

/-- Lines 489–598, state-mutation part of the glyph body: dedup-map
update, skeleton emission with queue flush for a standard glyph,
geometry-record emission for a first-seen identity, and the index
increments (`stable_idx`/`line_idx` by `clustersize`, `true_idx` by 1,
`glyph_cluster_last` update). -/
def applyGlyphUpdate (g : GState) (clustersize : Int) (glyph_cluster : Nat)
    (ids : Ids) (gsz : List Int) (offset : Int × Int) (run_standard_glyph : Bool)
    (queue1 : List (List Int × Ids × (Int × Int))) : GState :=
  let dedup := dedupStep g.s.unique_glyphs ids.glyph_hash
  let evq :=
    if run_standard_glyph then
      (g.s.events
         ++ [SkelEv.glyph gsz ids (if offset.1 ≠ 0 ∨ offset.2 ≠ 0 then some offset else none)]
         ++ queue1.map (fun q => SkelEv.glyphext q.1 q.2.1 q.2.2 ids),
       ([] : List (List Int × Ids × (Int × Int))))
    else (g.s.events, queue1)
  { s := { g.s with
             stable_idx := g.s.stable_idx + clustersize,
             true_idx := g.s.true_idx + 1,
             glyphqueue := evq.2,
             unique_glyphs := dedup.2,
             events := evq.1,
             geoRecords := if dedup.1 then g.s.geoRecords else g.s.geoRecords ++ [ids] },
    line_idx := g.line_idx + clustersize,
    glyph_cluster_last := (glyph_cluster : Int) }

/-- Lines 366–598: the body of `for glyph_idx, glyph in enumerate
(glyph_run)`. -/
def processGlyph (cfg : Config) (o : Oracle) (ctx : RunCtx) (g : GState)
    (glyph_idx : Nat) (glyph0 : ShapedGlyph) : Except String GState :=
  let glyph_name := glyph0.name
  let glyph_cluster := glyph0.cluster
  match computeClusterSize ctx.is_reversed ctx.glyph_run ctx.run_text.length glyph_idx
      glyph_cluster with
  | .error e => .error e
  | .ok (clustersize, glyph_cluster_next) =>
    let glyph_variations :=
      if cfg.varying_per_glyph then perGlyphVariations cfg o g.s.stable_idx
      else cfg.variations
    match resolveAdvance cfg o ctx.run_text glyph0 glyph_cluster clustersize
        glyph_variations with
    | .error e => .error e
    | .ok (ax, glyph, ax_nokern) =>
      match ctx.run_text[glyph_cluster]? with
      | none => .error ("IndexError: run_text[glyph_cluster]")
      | some ch =>
        let codepoint_lazy := ch.toNat
        let source_idx := ctx.run_start_full + glyph_cluster
        let glyph_hash := o.hashFn (dictString glyph.gid glyph_variations)
        let ids : Ids := ⟨ctx.line_id, g.s.stable_idx, g.s.true_idx, glyph.gid,
          source_idx, codepoint_lazy, g.line_idx, glyph_hash, ctx.run_id⟩
        match glyphBoxHeight cfg.vmtx (resolve_sCapHeight cfg.os2) glyph_name with
        | .error e => .error e
        | .ok baseH =>
          let gsz : List Int :=
            match cfg.font_using_kern, ax_nokern with
            | true, some an => [ax, baseH, an, baseH]
            | _, _ => [ax, baseH]
          let offset := (glyph.dx, glyph.dy)
          let staged : Except String (Bool × List (List Int × Ids × (Int × Int))) :=
            if ctx.is_reversed then
              if (glyph_cluster : Int) = glyph_cluster_next then
                match (o.shape ctx.run_text glyph_variations none)[glyph_idx]? with
                | none => .error ("IndexError: reglyph lookup while staging a queued glyph")
                | some _ => .ok (false, g.s.glyphqueue ++ [(gsz, ids, offset)])
              else .ok (true, g.s.glyphqueue)
            else
              if (glyph_cluster : Int) = g.glyph_cluster_last then
                .ok (false, g.s.glyphqueue ++ [(gsz, ids, offset)])
              else .ok (true, g.s.glyphqueue)
          match staged with
          | .error e => .error e
          | .ok (run_standard_glyph, queue1) =>
            .ok (applyGlyphUpdate g clustersize glyph_cluster ids gsz offset
                   run_standard_glyph queue1)

/-- Lines 354–598: process one glyph run (reversal detection —
`glyph_run[-1].cluster < glyph_run[0].cluster`, an `IndexError` on an
empty run — then the glyph loop). -/
def processRun (cfg : Config) (o : Oracle) (line_id : Nat) (s : AsmState)
    (glyph_run : List ShapedGlyph) (run_text : List Char) (run_start : Nat)
    (run_id : Nat) : Except String AsmState :=
  match glyph_run.getLast?, glyph_run.head? with
  | some lastg, some headg =>
    let is_reversed := decide (lastg.cluster < headg.cluster)
    let ctx : RunCtx := ⟨line_id, run_text, s.linestart + run_start, run_id,
      is_reversed, glyph_run⟩
    match glyph_run.enum.foldlM (fun g p => processGlyph cfg o ctx g p.1 p.2)
        (⟨s, 0, -1⟩ : GState) with
    | .error e => .error e
    | .ok final => .ok final.s
  | _, _ => .error ("IndexError: empty glyph run at reversal detection")

/-- Lines 331–604 (one iteration of the line loop): create the line
point, segment the line (bidi runs, or the whole non-empty line as one
run), shape every run, reset `glyphqueue`, process the runs, then
advance `linestart` by `len(line_text)+1` and `stable_idx` by 1. -/
def processLine (cfg : Config) (o : Oracle) (line_id : Nat) (s0 : AsmState)
    (line_text : List Char) : Except String AsmState :=
  let s1 := { s0 with events := s0.events ++ [SkelEv.line line_id] }
  let seg :=
    if cfg.use_bidi_segmentation then
      let chars := List.zipWith (fun c l => (⟨c, l⟩ : BChar)) line_text (o.bidiLevels line_text)
      line_to_run_segments chars (o.bidiBaseLevel line_text) s1.run_id_current []
    else ([], s1.run_id_current, [])
  let glyph_runs : List (List ShapedGlyph × List Char × Nat × Nat) :=
    if cfg.use_bidi_segmentation then
      (List.zip seg.1 seg.2.2).map (fun p =>
        (o.shape p.1.text cfg.variations (some p.1.dir), p.1.text, p.1.start, p.2.runId))
    else if line_text ≠ [] then
      [(o.shape line_text cfg.variations none, line_text, 0, line_id)]
    else []
  let s2 := { s1 with run_id_current := seg.2.1, glyphqueue := [] }
  match glyph_runs.foldlM
      (fun st r => processRun cfg o line_id st r.1 r.2.1 r.2.2.1 r.2.2.2) s2 with
  | .error e => .error e
  | .ok s3 => .ok { s3 with linestart := s3.linestart + line_text.length + 1,
                            stable_idx := s3.stable_idx + 1 }

/-- The initial assembler state: the block point has been created. -/
def initState : AsmState := ⟨0, 0, 0, 0, [], [], [SkelEv.block], []⟩

/-- The core loop of `output_geo_fast` (lines 310–604): the block point,
then `for line_id, line_text in enumerate(src_text.split("\n"))`. -/
def output_geo_fast (cfg : Config) (o : Oracle) (src_text : List Char) :
    Except String AsmState :=
  (src_text.splitOn '\n').enum.foldlM
    (fun s p => processLine cfg o p.1 s p.2) initState

/-! ### Concrete test fixtures

A tiny two-glyph font/shaper: `a` and `b` shape to one glyph each,
`cd` shapes to a base glyph plus a zero-width mark on the same cluster.
`b` is the only RTL character (level 1), so bidi segmentation splits
lines at every boundary between `b` and other characters. -/

def shapeFix : List Char → List (String × Int) → Option String → List ShapedGlyph
  | ['a'], _, _ => [⟨"a", 1, 0, 10, 0, 0⟩]
  | ['b'], _, _ => [⟨"b", 2, 0, 10, 0, 0⟩]
  | ['c', 'd'], _, _ => [⟨"c", 3, 0, 10, 0, 0⟩, ⟨"dmark", 4, 0, 5, 1, 2⟩]
  | _, _, _ => []

def oracleFix : Oracle where
  shape := shapeFix
  advance := fun _ g => (g : Int) * 100
  pointAttr := fun _ _ => 0
  compatName := id
  hashFn := fun str => (str.data.map Char.toNat).sum
  bidiBaseLevel := fun _ => 0
  bidiLevels := fun cs => cs.map (fun c => if c = 'b' then 1 else 0)

def cfgPlain : Config where
  varying_per_glyph := false
  font_using_kern := false
  reprocess_for_glyphswap := false
  use_bidi_segmentation := true
  remove_overlaps := false
  variation_axes := []
  variations := []
  numPoints := 0
  attribstatus := []
  vmtx := none
  os2 := ⟨some 700, some 750⟩

def cfgVary : Config where
  varying_per_glyph := true
  font_using_kern := true
  reprocess_for_glyphswap := false
  use_bidi_segmentation := false
  remove_overlaps := false
  variation_axes := []
  variations := []
  numPoints := 0
  attribstatus := []
  vmtx := none
  os2 := ⟨some 700, some 750⟩

/-! ## 5. Claims about the pen (C7) -/

/-- C7 counterexample: feeding the quadratic segment with control point
`(1,2)` and endpoint `(3,4)` to the cubic-order pen appends
`[1,2,3,4,3,4]`: the *endpoint* is duplicated into the second
control-point slot, which differs from the claimed elevation
`[1,2,1,2,3,4]` (control point duplicated into both control slots). -/
theorem C7_counterexample :
    ((HoudiniCubicPen.qCurveTo (⟨[], []⟩ : PenState) (1, 2) (3, 4)).ptsset
       = [1, 2, 3, 4, 3, 4]) ∧
    ((HoudiniCubicPen.qCurveTo (⟨[], []⟩ : PenState) (1, 2) (3, 4)).ptsset
       ≠ (qCurveTo_specClaim (⟨[], []⟩ : PenState) (1, 2) (3, 4)).ptsset) := by
  decide

/-- C7 (amended): in the cubic-order pen an incoming quadratic segment
yields a stride-6 record holding the single quadratic control point once
followed by the endpoint duplicated into the second control slot and the
endpoint slot; `moveTo`/`lineTo` duplicate the anchor into all three
slots; `closePath` flushes the accumulated record as one contour. -/
theorem C7_cubic_pen_records (s : PenState) (a q e p1 p2 p3 : Int × Int) :
    ((closePath (HoudiniCubicPen.qCurveTo (HoudiniCubicPen.moveTo s a) q e)).contours
      = s.contours
        ++ [s.ptsset ++ [a.1, a.2, a.1, a.2, a.1, a.2, q.1, q.2, e.1, e.2, e.1, e.2]]) ∧
    ((HoudiniCubicPen.lineTo s p1).ptsset
      = s.ptsset ++ [p1.1, p1.2, p1.1, p1.2, p1.1, p1.2]) ∧
    ((HoudiniCubicPen.curveTo s p1 p2 p3).ptsset
      = s.ptsset ++ [p1.1, p1.2, p2.1, p2.2, p3.1, p3.2]) := by
  refine ⟨?_, rfl, rfl⟩
  simp [closePath, HoudiniCubicPen.qCurveTo, HoudiniCubicPen.moveTo]

/-! ## 6. Claims about the assembler (C2–C6, C10) -/

/-- C4: a run for which the shaper returned zero glyphs crashes the
request rather than degenerating to an empty contribution: the reversal
detection `glyph_run[-1].cluster < glyph_run[0].cluster` raises an
uncaught `IndexError` on the empty list — shown generally and end to end
on a line (`z`) that the fixture shaper maps to zero glyphs. -/
theorem C4_zero_glyph_run_errors :
    (∀ (cfg : Config) (o : Oracle) (line_id : Nat) (s : AsmState)
       (run_text : List Char) (run_start run_id : Nat),
       processRun cfg o line_id s [] run_text run_start run_id
         = .error ("IndexError: empty glyph run at reversal detection")) ∧
    (output_geo_fast cfgPlain oracleFix ['z']
       = .error ("IndexError: empty glyph run at reversal detection")) := by
  exact ⟨fun _ _ _ _ _ _ _ => rfl, rfl⟩

/-- C5: with per-glyph variation active, kerning active for the font,
and reprocessing-for-glyph-substitution disabled, the assembler
re-shapes the minimal substring covering the current cluster
(`run_text[glyph_cluster : glyph_cluster+clustersize+1]`) under the
resolved per-glyph variation, accepts the re-shaped glyph and its
advance iff its name matches the original glyph's name, and otherwise
falls back to the font's unkerned per-glyph advance under those
variations; either way the result is `.ok` — a kerning-recovery
mismatch never aborts the request. -/
theorem C5_kern_recovery (cfg : Config) (o : Oracle) (run_text : List Char)
    (glyph : ShapedGlyph) (glyph_cluster : Nat) (clustersize : Int)
    (gvars : List (String × Int)) (reglyph : ShapedGlyph) (rest : List ShapedGlyph)
    (hv : cfg.varying_per_glyph = true) (hk : cfg.font_using_kern = true)
    (hr : cfg.reprocess_for_glyphswap = false)
    (hshape : o.shape (pySlice run_text glyph_cluster ((glyph_cluster : Int) + clustersize + 1))
        gvars none = reglyph :: rest) :
    resolveAdvance cfg o run_text glyph glyph_cluster clustersize gvars
      = .ok (if reglyph.name = glyph.name then (reglyph.ax, reglyph, none)
             else (o.advance gvars glyph.gid, glyph, none)) := by
  unfold resolveAdvance
  rw [hv, hr, hk]
  simp only [if_true, Bool.false_eq_true, if_false, hshape, List.getElem?_cons_zero]
  split <;> rfl

/-- Witness for C5 on a concrete name mismatch: re-shaping `a` under the
fixture font yields glyph `a`, which differs from the original glyph
`x`; the fallback unkerned advance `900` is returned and no error is
raised. -/
theorem C5_kern_recovery_witness :
    cfgVary.varying_per_glyph = true ∧ cfgVary.font_using_kern = true ∧
    cfgVary.reprocess_for_glyphswap = false ∧
    oracleFix.shape (pySlice ['a'] 0 ((0 : Int) + 1 + 1)) [] none
      = (⟨"a", 1, 0, 10, 0, 0⟩ : ShapedGlyph) :: [] ∧
    resolveAdvance cfgVary oracleFix ['a'] ⟨"x", 9, 0, 7, 0, 0⟩ 0 1 []
      = .ok (if (⟨"a", 1, 0, 10, 0, 0⟩ : ShapedGlyph).name
                 = (⟨"x", 9, 0, 7, 0, 0⟩ : ShapedGlyph).name
             then ((10 : Int), (⟨"a", 1, 0, 10, 0, 0⟩ : ShapedGlyph), none)
             else (oracleFix.advance [] 9, ⟨"x", 9, 0, 7, 0, 0⟩, none)) :=
  ⟨rfl, rfl, rfl, rfl,
   C5_kern_recovery cfgVary oracleFix ['a'] ⟨"x", 9, 0, 7, 0, 0⟩ 0 1 []
     ⟨"a", 1, 0, 10, 0, 0⟩ [] rfl rfl rfl rfl⟩

/-- The metric fallback chain as C6 states it: cap height when present
and nonzero, else typographic ascender when present and nonzero, else
the fixed default 750. -/
def specCapHeightChain (os2 : OS2) : Int :=
  match os2.sCapHeight with
  | some c =>
    if c ≠ 0 then c
    else
      match os2.sTypoAscender with
      | some a => if a ≠ 0 then a else 750
      | none => 750
  | none =>
    match os2.sTypoAscender with
    | some a => if a ≠ 0 then a else 750
    | none => 750

/-- C6 counterexample: for an OS/2 table with no cap height and a
*present but zero* typographic ascender (and no `vmtx`), the code
resolves the vertical box size to 0, while the claimed chain ("if that
is zero or absent, use a fixed default") requires 750. -/
theorem C6_counterexample :
    resolve_sCapHeight ⟨none, some 0⟩ = 0 ∧
    specCapHeightChain ⟨none, some 0⟩ = 750 ∧
    glyphBoxHeight none (resolve_sCapHeight ⟨none, some 0⟩) "A" = .ok 0 ∧
    (0 : Int) ≠ 750 := by
  refine ⟨rfl, rfl, rfl, by decide⟩

/-- C6 (amended): the vertical box size follows the chain `vmtx` entry →
resolved cap height, where the resolved cap height is the OS/2 cap
height when present and nonzero, else the typographic ascender whenever
that attribute is *present* (even when its value is 0 — the fixed
default 750 applies only when the attribute is absent).  The computation
never errors when the `vmtx` table is absent or contains the glyph; a
present table missing the glyph raises a `TypeError`. -/
theorem C6_metric_fallback (os2 : OS2) (metrics : List (String × Int))
    (name : String) (h hv : Int) :
    (os2.sCapHeight = some h → h ≠ 0 → resolve_sCapHeight os2 = h) ∧
    ((os2.sCapHeight = none ∨ os2.sCapHeight = some 0) →
       (∀ a, os2.sTypoAscender = some a → resolve_sCapHeight os2 = a) ∧
       (os2.sTypoAscender = none → resolve_sCapHeight os2 = 750)) ∧
    (glyphBoxHeight none (resolve_sCapHeight os2) name = .ok (resolve_sCapHeight os2)) ∧
    (metrics.lookup name = some hv → hv ≠ 0 →
       glyphBoxHeight (some metrics) (resolve_sCapHeight os2) name = .ok hv) ∧
    (metrics.lookup name = some 0 →
       glyphBoxHeight (some metrics) (resolve_sCapHeight os2) name
         = .ok (resolve_sCapHeight os2)) ∧
    (metrics.lookup name = none →
       glyphBoxHeight (some metrics) (resolve_sCapHeight os2) name
         = .error ("TypeError: vmtx metrics entry missing for glyph")) := by
  refine ⟨?_, ?_, rfl, ?_, ?_, ?_⟩
  · intro hc hne
    unfold resolve_sCapHeight
    rw [hc]
    simp [hne]
  · intro hc
    constructor
    · intro a ha
      unfold resolve_sCapHeight
      rcases hc with hc | hc <;> rw [hc, ha] <;> simp
    · intro ha
      unfold resolve_sCapHeight
      rcases hc with hc | hc <;> rw [hc, ha] <;> simp
  · intro hl hne
    simp only [glyphBoxHeight, hl]
    simp [hne]
  · intro hl
    simp only [glyphBoxHeight, hl]
    simp
  · intro hl
    simp only [glyphBoxHeight, hl]

/-- Witness for C6 (amended) on a concrete font: cap height 0, ascender
600, a `vmtx` containing glyph `A` with advance height 5. -/
theorem C6_metric_fallback_witness :
    ((⟨some 0, some 600⟩ : OS2).sCapHeight = some 3 → (3 : Int) ≠ 0 →
       resolve_sCapHeight ⟨some 0, some 600⟩ = 3) ∧
    (((⟨some 0, some 600⟩ : OS2).sCapHeight = none
        ∨ (⟨some 0, some 600⟩ : OS2).sCapHeight = some 0) →
       (∀ a, (⟨some 0, some 600⟩ : OS2).sTypoAscender = some a →
          resolve_sCapHeight ⟨some 0, some 600⟩ = a) ∧
       ((⟨some 0, some 600⟩ : OS2).sTypoAscender = none →
          resolve_sCapHeight ⟨some 0, some 600⟩ = 750)) ∧
    (glyphBoxHeight none (resolve_sCapHeight ⟨some 0, some 600⟩) "A"
       = .ok (resolve_sCapHeight ⟨some 0, some 600⟩)) ∧
    ([("A", (5 : Int))].lookup "A" = some 5 → (5 : Int) ≠ 0 →
       glyphBoxHeight (some [("A", 5)]) (resolve_sCapHeight ⟨some 0, some 600⟩) "A"
         = .ok 5) ∧
    ([("A", (5 : Int))].lookup "A" = some 0 →
       glyphBoxHeight (some [("A", 5)]) (resolve_sCapHeight ⟨some 0, some 600⟩) "A"
         = .ok (resolve_sCapHeight ⟨some 0, some 600⟩)) ∧
    ([("A", (5 : Int))].lookup "A" = none →
       glyphBoxHeight (some [("A", 5)]) (resolve_sCapHeight ⟨some 0, some 600⟩) "A"
         = .error ("TypeError: vmtx metrics entry missing for glyph")) :=
  C6_metric_fallback ⟨some 0, some 600⟩ [("A", 5)] "A" 3 5

/-! ### The deduplication invariant (C2) -/

/-- Geometry is extracted exactly once per dedup key: the geometry
records carry pairwise distinct keys, and the keys with a record are
exactly the keys of the dedup map (whose keys are unique as well). -/
def DedupInv (recs : List Ids) (m : List (Int × Nat)) : Prop :=
  (recs.map (·.glyph_hash)).Nodup ∧
  (∀ k, k ∈ recs.map (·.glyph_hash) ↔ k ∈ m.map (·.1)) ∧
  (m.map (·.1)).Nodup

lemma dedupStep_mem (m : List (Int × Nat)) (k : Int) (h : k ∈ m.map (·.1)) :
    dedupStep m k = (true, m.map (fun p => if p.1 = k then (p.1, p.2 + 1) else p)) := by
  unfold dedupStep
  rw [if_pos]
  rcases List.mem_map.mp h with ⟨p, hp, hk⟩
  exact List.any_eq_true.mpr ⟨p, hp, decide_eq_true hk⟩

lemma dedupStep_not_mem (m : List (Int × Nat)) (k : Int) (h : k ∉ m.map (·.1)) :
    dedupStep m k = (false, m ++ [(k, 1)]) := by
  unfold dedupStep
  rw [if_neg]
  intro hany
  rcases List.any_eq_true.mp hany with ⟨p, hp, hk⟩
  exact h (List.mem_map.mpr ⟨p, hp, of_decide_eq_true hk⟩)

lemma dedupStep_update_keys (m : List (Int × Nat)) (k : Int) :
    (m.map (fun p => if p.1 = k then (p.1, p.2 + 1) else p)).map (·.1) = m.map (·.1) := by
  rw [List.map_map]
  refine List.map_congr_left ?_
  intro p _
  by_cases hp : p.1 = k <;> simp [hp]

lemma dedupInv_step (recs : List Ids) (m : List (Int × Nat)) (ids : Ids)
    (hinv : DedupInv recs m) :
    DedupInv (if (dedupStep m ids.glyph_hash).1 then recs else recs ++ [ids])
      (dedupStep m ids.glyph_hash).2 := by
  obtain ⟨hnd, hiff, hmnd⟩ := hinv
  by_cases hk : ids.glyph_hash ∈ m.map (·.1)
  · rw [dedupStep_mem m ids.glyph_hash hk]
    show DedupInv recs (m.map (fun p => if p.1 = ids.glyph_hash then (p.1, p.2 + 1) else p))
    refine ⟨hnd, ?_, ?_⟩
    · intro k
      rw [dedupStep_update_keys]
      exact hiff k
    · rw [dedupStep_update_keys]
      exact hmnd
  · rw [dedupStep_not_mem m ids.glyph_hash hk]
    show DedupInv (recs ++ [ids]) (m ++ [(ids.glyph_hash, 1)])
    refine ⟨?_, ?_, ?_⟩
    · simp only [List.map_append, List.map]
      rw [List.nodup_append]
      refine ⟨hnd, List.nodup_singleton _, ?_⟩
      intro x hx
      simp only [List.mem_singleton]
      intro hx1
      subst hx1
      exact hk ((hiff _).mp hx)
    · intro k
      simp only [List.map_append, List.map, List.mem_append, List.mem_singleton]
      constructor
      · rintro (hk' | hk')
        · exact Or.inl ((hiff k).mp hk')
        · exact Or.inr hk'
      · rintro (hk' | hk')
        · exact Or.inl ((hiff k).mpr hk')
        · exact Or.inr hk'
    · simp only [List.map_append, List.map]
      rw [List.nodup_append]
      exact ⟨hmnd, List.nodup_singleton _, by
        intro x hx
        simp only [List.mem_singleton]
        intro hx1
        subst hx1
        exact hk hx⟩

lemma applyGlyphUpdate_dedupInv (g : GState) (cs : Int) (gc : Nat) (ids : Ids)
    (gsz : List Int) (off : Int × Int) (std : Bool)
    (q1 : List (List Int × Ids × (Int × Int)))
    (hinv : DedupInv g.s.geoRecords g.s.unique_glyphs) :
    DedupInv (applyGlyphUpdate g cs gc ids gsz off std q1).s.geoRecords
      (applyGlyphUpdate g cs gc ids gsz off std q1).s.unique_glyphs :=
  dedupInv_step g.s.geoRecords g.s.unique_glyphs ids hinv

/-- Every successful `processGlyph` step preserves the dedup invariant:
the dedup map is updated through `dedupStep` at the emitted key, and a
geometry record is appended iff the key was new. -/
lemma processGlyph_dedupInv (cfg : Config) (o : Oracle) (ctx : RunCtx)
    (g g' : GState) (i : Nat) (glyph : ShapedGlyph)
    (h : processGlyph cfg o ctx g i glyph = .ok g')
    (hinv : DedupInv g.s.geoRecords g.s.unique_glyphs) :
    DedupInv g'.s.geoRecords g'.s.unique_glyphs := by
  unfold processGlyph at h
  simp only [] at h
  repeat' split at h
  all_goals first
    | exact Except.noConfusion h
    | (simp only [Except.ok.injEq] at h
       subst h
       exact applyGlyphUpdate_dedupInv _ _ _ _ _ _ _ _ hinv)

lemma foldlM_except_inv {α β : Type} (P : β → Prop) (f : β → α → Except String β)
    (hf : ∀ b a b', P b → f b a = .ok b' → P b') :
    ∀ (l : List α) (b b' : β), P b → l.foldlM f b = .ok b' → P b' := by
  intro l
  induction l with
  | nil =>
    intro b b' hb hfold
    simp only [List.foldlM_nil] at hfold
    cases hfold
    exact hb
  | cons a rest ih =>
    intro b b' hb hfold
    rw [List.foldlM_cons] at hfold
    cases hfa : f b a with
    | error e =>
      rw [hfa] at hfold
      exact absurd hfold (by simp [Bind.bind, Except.bind])
    | ok b1 =>
      rw [hfa] at hfold
      simp only [Bind.bind, Except.bind] at hfold
      exact ih b1 b' (hf b a b1 hb hfa) hfold

lemma processRun_dedupInv (cfg : Config) (o : Oracle) (line_id : Nat)
    (s s' : AsmState) (glyph_run : List ShapedGlyph) (run_text : List Char)
    (run_start run_id : Nat)
    (h : processRun cfg o line_id s glyph_run run_text run_start run_id = .ok s')
    (hinv : DedupInv s.geoRecords s.unique_glyphs) :
    DedupInv s'.geoRecords s'.unique_glyphs := by
  unfold processRun at h
  simp only [] at h
  split at h
  · split at h
    · exact Except.noConfusion h
    · rename_i final hfold
      simp only [Except.ok.injEq] at h
      subst h
      exact foldlM_except_inv (fun g : GState => DedupInv g.s.geoRecords g.s.unique_glyphs)
        _ (fun b a b' hb hab => processGlyph_dedupInv cfg o _ b b' a.1 a.2 hab hb)
        _ _ _ hinv hfold
  · exact Except.noConfusion h

lemma processLine_dedupInv (cfg : Config) (o : Oracle) (line_id : Nat)
    (s s' : AsmState) (line_text : List Char)
    (h : processLine cfg o line_id s line_text = .ok s')
    (hinv : DedupInv s.geoRecords s.unique_glyphs) :
    DedupInv s'.geoRecords s'.unique_glyphs := by
  unfold processLine at h
  simp only [] at h
  split at h
  · exact Except.noConfusion h
  · rename_i s3 hfold
    simp only [Except.ok.injEq] at h
    subst h
    show DedupInv s3.geoRecords s3.unique_glyphs
    refine foldlM_except_inv (fun st : AsmState => DedupInv st.geoRecords st.unique_glyphs)
      _ (fun b (a : List ShapedGlyph × List Char × Nat × Nat) b' hb hab =>
           processRun_dedupInv cfg o line_id b b' a.1 a.2.1 a.2.2.1 a.2.2.2 hab hb)
      _ _ _ ?_ hfold
    exact hinv

/-- C2: across a whole request the geometry records' dedup keys are
pairwise distinct and are exactly the keys of the dedup map — together
with the `dedupStep` behaviour (a key seen for the first time appends
one geometry record and registers reference count 1; any later
occurrence of the same key only increments its count and appends no
record), shaping the same glyph id under the same variation coordinates
twice produces exactly one geometry record, never two. -/
theorem C2_geometry_dedup (cfg : Config) (o : Oracle) (text : List Char)
    (s : AsmState) (h : output_geo_fast cfg o text = .ok s) :
    ((s.geoRecords.map (·.glyph_hash)).Nodup ∧
     (∀ k, k ∈ s.geoRecords.map (·.glyph_hash) ↔ k ∈ s.unique_glyphs.map (·.1))) ∧
    (∀ m k, k ∉ m.map (·.1) → dedupStep m k = (false, m ++ [(k, 1)])) ∧
    (∀ m k, k ∈ m.map (·.1) →
       dedupStep m k = (true, m.map (fun p => if p.1 = k then (p.1, p.2 + 1) else p))) := by
  have hinv : DedupInv s.geoRecords s.unique_glyphs := by
    unfold output_geo_fast at h
    exact foldlM_except_inv (fun st : AsmState => DedupInv st.geoRecords st.unique_glyphs)
      _ (fun b a b' hb hab => processLine_dedupInv cfg o a.1 b b' a.2 hab hb)
      _ _ _ ⟨by simp [initState], by simp [initState], by simp [initState]⟩ h
  exact ⟨⟨hinv.1, hinv.2.1⟩,
    fun m k => dedupStep_not_mem m k,
    fun m k => dedupStep_mem m k⟩

/-- Witness for C2: evaluating the pipeline on the line `cd` (a base
glyph plus a zero-width mark) succeeds and the resulting geometry
records carry pairwise distinct keys, exactly the keys of the dedup map. -/
theorem C2_geometry_dedup_witness :
    ∃ s, output_geo_fast cfgPlain oracleFix ['c', 'd'] = .ok s ∧
      ((s.geoRecords.map (·.glyph_hash)).Nodup ∧
       (∀ k, k ∈ s.geoRecords.map (·.glyph_hash) ↔ k ∈ s.unique_glyphs.map (·.1))) :=
  ⟨_, rfl, (C2_geometry_dedup cfgPlain oracleFix ['c', 'd'] _ rfl).1⟩

/-- C3 at the failing input: the line `ab` is bidi-segmented into two
runs of one glyph each (both of cluster size 1).  As claimed,
`stable_idx` advances by the cluster size per glyph (0 then 1) and
`true_idx` by 1 per glyph (0 then 1) — but the per-line index is
re-initialised at the start of every *run* (outputCore.py:365), so the
second glyph of the same line carries `line_idx = 0` where the claim
(and the code's own id glossary, outputCore.py:473–474) requires the
accumulated cluster size 1. -/
theorem C3_line_idx_resets_per_run :
    (Except.map (fun s : AsmState =>
        s.events.filterMap (fun ev =>
          match ev with
          | SkelEv.glyph _ ids _ => some (ids.stable_idx, ids.true_idx, ids.line_idx)
          | _ => none))
      (output_geo_fast cfgPlain oracleFix ['a', 'b'])
      = .ok [(0, 0, 0), (1, 1, 0)]) ∧
    ([((0 : Int), (0 : Nat), (0 : Int)), (1, 1, 0)] ≠ [(0, 0, 0), (1, 1, 1)]) :=
  ⟨rfl, by decide⟩

/-- `true` iff the event does not mention a glyph with the given
`true_idx`, either directly or as an extension target. -/
def noTrueIdx (n : Nat) : SkelEv → Bool
  | SkelEv.glyph _ ids _ => ids.true_idx != n
  | SkelEv.glyphext _ ids _ tgt => ids.true_idx != n && tgt.true_idx != n
  | _ => true

/-- C10: the deferred mark-attachment queue is scoped to the line, not
the run.  (i) `processLine` re-initialises the queue, so its result is
independent of the incoming `glyphqueue`.  (ii) On the concrete layout
`cdb\ncd`, the zero-width mark queued at the end of the first run
(`run_id` 0) of line 0 is emitted as a `glyphext` attached to the first
standard glyph of the *next run* (`run_id` 1) of the same line.
(iii) The mark still queued when line 1 ends (`true_idx` 4) stays in the
final queue and appears in no skeleton event: it is discarded. -/
theorem C10_queue_line_scoped :
    (∀ (cfg : Config) (o : Oracle) (line_id : Nat) (s : AsmState)
       (q1 q2 : List (List Int × Ids × (Int × Int))) (line_text : List Char),
       processLine cfg o line_id { s with glyphqueue := q1 } line_text
         = processLine cfg o line_id { s with glyphqueue := q2 } line_text) ∧
    (∃ s, output_geo_fast cfgPlain oracleFix
        ['c', 'd', 'b', Char.ofNat 10, 'c', 'd'] = .ok s ∧
      (∃ gsz ids off tgt, SkelEv.glyphext gsz ids off tgt ∈ s.events
          ∧ ids.line_id = 0 ∧ tgt.line_id = 0 ∧ ids.run_id = 0 ∧ tgt.run_id = 1) ∧
      s.glyphqueue.map (fun q => q.2.1.true_idx) = [4] ∧
      s.events.all (noTrueIdx 4) = true) := by
  constructor
  · intro cfg o line_id s q1 q2 line_text
    cases s
    rfl
  · refine ⟨_, rfl, ?_, rfl, rfl⟩
    refine ⟨[5, 700], ⟨0, 0, 1, 4, 0, 99, 0, 784, 0⟩, (1, 2),
      ⟨0, 2, 2, 2, 2, 98, 0, 782, 1⟩, ?_, rfl, rfl, rfl, rfl⟩
    decide

end Typecaster
